import Mathlib

/-!
Verification of the gene-table dashboard core (`src/components.py`).

The development shallowly embeds the parts of the program the properties
talk about:

* `_order_strings` (components.py lines 10-21): turning timepoint labels of
  the form letter+integer into an ordered categorical;
* `GeneTable._read_scores` (lines 201-219) and
  `TissueGeneTable._read_scores` (lines 407-428): building the ranked
  positive/negative score lists;
* the table rendering and paging callback machinery
  (`_table_body` lines 296-306, `_table_row` lines 308-322,
  `_get_scores` lines 324-328, `update_table` lines 355-377,
  `update_title` lines 383-387).

Python floats are modelled as rationals (`Rat`); fallible Python code is
modelled with `Except String`, the error string naming the Python exception
class that the corresponding operation raises.
-/

namespace LpsDash

/-! ### Python integer parsing and decimal printing

`pd.Series.astype(int)` applies Python `int(str)` to every element.  We model
`int(str)` for ASCII input: optional surrounding whitespace, an optional
sign, then a nonempty digit run in which single underscores may separate
digits.  (CPython additionally accepts unicode whitespace and digits, which
never arise in the data this program reads.) -/

/-- ASCII whitespace, as stripped by Python `int(str)`. -/
def isWs (c : Char) : Bool :=
  c.toNat = 32 || c.toNat = 9 || c.toNat = 10 ||
  c.toNat = 13 || c.toNat = 11 || c.toNat = 12

/-- ASCII decimal digit test. -/
def pyIsDigit (c : Char) : Bool :=
  48 ≤ c.toNat && c.toNat ≤ 57

/-- Numeric value of a digit character. -/
def digVal (c : Char) : Nat := c.toNat - 48

/-- The decimal digit character for `d ≤ 9`. -/
def digChar : Nat → Char
  | 0 => '0' | 1 => '1' | 2 => '2' | 3 => '3' | 4 => '4'
  | 5 => '5' | 6 => '6' | 7 => '7' | 8 => '8' | _ => '9'

/-- Digit-run parser: digits with single underscores allowed between
digits, most significant digit first, accumulating into `acc`. -/
def pyDigitsAux : List Char → Nat → Option Nat
  | [], acc => some acc
  | c :: rest, acc =>
    if c = '_' then
      match rest with
      | [] => none
      | c2 :: _ => if pyIsDigit c2 then pyDigitsAux rest acc else none
    else if pyIsDigit c then pyDigitsAux rest (acc * 10 + digVal c)
    else none

/-- Parse a nonempty digit run (underscores allowed between digits only). -/
def pyDigits? (cs : List Char) : Option Nat :=
  match cs with
  | [] => none
  | c :: _ => if pyIsDigit c then pyDigitsAux cs 0 else none

/-- Model of Python `int(str)`: strip whitespace, optional sign, digit run. -/
def pyInt? (s : String) : Option Int :=
  let cs := ((s.data.dropWhile isWs).reverse.dropWhile isWs).reverse
  match cs with
  | [] => none
  | c :: rest =>
    if c = '-' then (pyDigits? rest).map (fun n => -(n : Int))
    else if c = '+' then (pyDigits? rest).map (fun n => (n : Int))
    else (pyDigits? (c :: rest)).map (fun n => (n : Int))

/-- Decimal digits of `n`, most significant first, with explicit fuel
(`fuel > n` suffices); mirrors Python `str` on a nonnegative int. -/
def natDigsAux : Nat → Nat → List Char
  | 0, _ => []
  | fuel + 1, n =>
    if n < 10 then [digChar n]
    else natDigsAux fuel (n / 10) ++ [digChar (n % 10)]

/-- Decimal digits of `n`, most significant first. -/
def natDigs (n : Nat) : List Char := natDigsAux (n + 1) n

/-- Model of Python `str` on an int. -/
def intStr (i : Int) : String :=
  if i < 0 then String.mk ('-' :: natDigs i.natAbs)
  else String.mk (natDigs i.natAbs)

/-- Python `s[1:]` (`pd.Series.str.slice(start = 1)` applies it elementwise). -/
def pySlice1 (s : String) : String := String.mk (s.data.drop 1)

/-- First index of `a` in a list, `none` when absent; models the categorical
code that `astype(CategoricalDtype(cats, ordered = True))` assigns, with
`none` playing the role of `NaN`. -/
def listIdxOf? {α : Type} [DecidableEq α] : List α → α → Option Nat
  | [], _ => none
  | b :: bs, a => if a = b then some 0 else (listIdxOf? bs a).map (fun k => k + 1)

/-- Left-to-right effectful map over `Except`, stopping at the first raise;
models a Python comprehension or loop whose body may raise. -/
def exMapM {α β : Type} (f : α → Except String β) : List α → Except String (List β)
  | [] => Except.ok []
  | a :: as => do
    let b ← f a
    let bs ← exMapM f as
    Except.ok (b :: bs)

/-! ### `_order_strings` (components.py lines 10-21) -/

/-- One element of `str_series.str.slice(start = 1).astype(int)`:
`astype(int)` raises `ValueError` when the sliced suffix does not parse. -/
def parseNum (s : String) : Except String Int :=
  match pyInt? (pySlice1 s) with
  | some n => Except.ok n
  | none => Except.error "ValueError"

/-- `np.unique` on ints: the sorted list of distinct values. -/
def sortedUniq (l : List Int) : List Int :=
  (l.insertionSort (fun a b => a ≤ b)).dedup

/-- One category string `c + str(n)` of `unique_str`. -/
def catLabel (c : Char) (n : Int) : String := String.mk (c :: (intStr n).data)

/-- `str_series[0][0]`: the first character of the first element; raises
`KeyError` on an empty series and `IndexError` on an empty first string. -/
def headChar (ss : List String) : Except String Char :=
  match ss with
  | [] => Except.error "KeyError"
  | s0 :: _ =>
    match s0.data with
    | [] => Except.error "IndexError"
    | ch :: _ => Except.ok ch

/-- Embedding of `_order_strings`.  Returns the ordered category list
(`unique_str` in the source) together with the per-element category codes
(`none` = `NaN`).  Raises `ValueError` when some sliced suffix does not parse
as an int (`astype(int)`), `KeyError`/`IndexError` when `str_series[0][0]`
is unavailable. -/
def _order_strings (ss : List String) :
    Except String (List String × List (Option Nat)) := do
  let nums ← exMapM parseNum ss
  let uniq := sortedUniq nums
  let c ← headChar ss
  let cats := uniq.map (catLabel c)
  Except.ok (cats, ss.map (fun s => listIdxOf? cats s))

/-! ### Score ranking (components.py lines 201-219 and 407-428) -/

/-- Positive ranked list for one topic column: rows with strictly positive
score, sorted descending by score, ranks = list positions
(`reset_index(drop = True)`). -/
def rankPos (rows : List (String × Rat)) : List (String × Rat) :=
  List.insertionSort (fun a b => b.2 ≤ a.2)
    (rows.filter (fun p => decide (0 < p.2)))

/-- Negative ranked list for one topic column: rows with strictly negative
score, sorted ascending by score (most negative first). -/
def rankNeg (rows : List (String × Rat)) : List (String × Rat) :=
  List.insertionSort (fun a b => a.2 ≤ b.2)
    (rows.filter (fun p => decide (p.2 < 0)))

/-- A loaded score csv as `GeneTable._read_scores` sees it: the header
(`cols`, whose first entry is the gene column in well-formed input) and, for
each topic column, the rows of `score_mat[['gene', topic]]` as
(gene, score) pairs. -/
structure ScoreMat where
  cols : List String
  colRows : String → List (String × Rat)

/-- The pair of per-topic ranked dictionaries (`pos_scores`, `neg_scores`). -/
structure Store where
  pos_scores : List (String × List (String × Rat))
  neg_scores : List (String × List (String × Rat))

/-- Embedding of `GeneTable._read_scores`: iterate the topic columns
`score_mat.columns[1:]`; selecting `score_mat[['gene', topic]]` raises
`KeyError` when the table has no `gene` column. -/
def _read_scores (m : ScoreMat) : Except String Store := do
  let entries ← exMapM (fun topic =>
      if "gene" ∈ m.cols then
        Except.ok (topic, rankPos (m.colRows topic), rankNeg (m.colRows topic))
      else Except.error "KeyError") (m.cols.drop 1)
  Except.ok ⟨entries.map (fun e => (e.1, e.2.1)), entries.map (fun e => (e.1, e.2.2))⟩

/-- One (tissue, gene, score) row of the tissue-scoped score table. -/
def tissueRows (rows : List (String × String × Rat)) (tissue : String) :
    List (String × String × Rat) :=
  rows.filter (fun p => decide (p.1 = tissue))

/-- Embedding of the per-(tissue, topic) positive list built by
`TissueGeneTable._read_scores`: restrict to one tissue, keep strictly
positive scores, sort descending. -/
def tissueRankPos (rows : List (String × String × Rat)) (tissue : String) :
    List (String × String × Rat) :=
  List.insertionSort (fun a b => b.2.2 ≤ a.2.2)
    ((tissueRows rows tissue).filter (fun p => decide (0 < p.2.2)))

/-- Negative counterpart for `TissueGeneTable._read_scores`. -/
def tissueRankNeg (rows : List (String × String × Rat)) (tissue : String) :
    List (String × String × Rat) :=
  List.insertionSort (fun a b => a.2.2 ≤ b.2.2)
    ((tissueRows rows tissue).filter (fun p => decide (p.2.2 < 0)))

/-! ### Table rendering and paging (components.py lines 296-377) -/

/-- One rendered table row: rank, gene and raw score (the view formats the
score with two decimals; the chart cells are out of scope). -/
structure Row where
  rank : Int
  gene : String
  score : Rat
deriving DecidableEq, Repr

/-- The clamp in `_table_body` (lines 299-302).  `scores.index` is
`range(0, N)` after `reset_index(drop = True)`, so `max(scores.index)`
raises `ValueError` when `N = 0` and is `N - 1` otherwise.  Note the lower
clamp runs before the upper clamp. -/
def clampStart (N ngenes : Nat) (start : Int) : Except String Int :=
  if N = 0 then Except.error "ValueError"
  else
    let s1 : Int := if start < 0 then 0 else start
    let s2 : Int :=
      if s1 > ((N : Int) - 1) - ((ngenes : Int) - 1) then ((N : Int) - 1) - ((ngenes : Int) - 1)
      else s1
    Except.ok s2

/-- `_table_row` (lines 308-322): `scores.loc[rank, ...]` raises `KeyError`
when `rank` is outside the index `range(0, N)`. -/
def _table_row (scores : List (String × Rat)) (rank : Int) : Except String Row :=
  if h : 0 ≤ rank ∧ rank.toNat < scores.length then
    Except.ok ⟨rank, (scores.get ⟨rank.toNat, h.2⟩).1, (scores.get ⟨rank.toNat, h.2⟩).2⟩
  else Except.error "KeyError"

/-- The row comprehension of `_table_body`: one `_table_row` per rank in
`range(start, start + ngenes)`, stopping at the first raise. -/
def buildRows (scores : List (String × Rat)) : Nat → Int → Except String (List Row)
  | 0, _ => Except.ok []
  | k + 1, r => do
    let row ← _table_row scores r
    let rest ← buildRows scores k (r + 1)
    Except.ok (row :: rest)

/-- Embedding of `GeneTable._table_body` (lines 296-306) for a fixed ranked
list: clamp the start rank, then build `ngenes` rows. -/
def _table_body (scores : List (String × Rat)) (ngenes : Nat) (start : Int) :
    Except String (List Row) := do
  let s ← clampStart scores.length ngenes start
  buildRows scores ngenes s

/-- `GeneTable._get_scores` (lines 324-328): dictionary lookup by topic,
raising `KeyError` for a topic absent from the loaded score domain. -/
def _get_scores (store : Store) (topic : String) (pos : Bool) :
    Except String (List (String × Rat)) :=
  match ((if pos then store.pos_scores else store.neg_scores).find?
          (fun e => decide (e.1 = topic))) with
  | some e => Except.ok e.2
  | none => Except.error "KeyError"

/-- The page of the table for a selection, as `_get_table`/`_table_body`
produce it. -/
def renderPage (store : Store) (topic : String) (pos : Bool) (ngenes : Nat)
    (start : Int) : Except String (List Row) := do
  let scores ← _get_scores store topic pos
  _table_body scores ngenes start

/-- The panel state that the callbacks keep in the rendered markup: the
(tissue, topic) key shown in the title, the dropdown sign, and the start
rank stored in the first rendered row (read back by `_rank_from_table`). -/
structure PanelState where
  tissue : String
  topic : String
  pos : Bool
  pageStart : Int
deriving DecidableEq, Repr

/-- The UI events that drive `update_table` (and, for selection changes,
`update_title`). -/
inductive PanelEvent
  | selectionChanged (tissue topic : String)
  | signChanged (pos : Bool)
  | pageForward
  | pageBack
deriving DecidableEq

/-- `_rank_from_table` (lines 337-342): the stored page start is the rank of
the first rendered row; raises `IndexError` on an empty body. -/
def firstRank (rows : List Row) : Except String Int :=
  match rows with
  | [] => Except.error "IndexError"
  | r :: _ => Except.ok r.rank

/-- Embedding of the `update_table` callback (lines 355-377), with the
`update_title` callback (lines 383-387) fused in for selection events:
a selection or sign change rebuilds the table from `start_rank = 0`
(`update_title` performs no validity check on the new key); the paging
buttons rebuild it from the stored rank plus or minus `ngenes`.  The new
`pageStart` is what `_rank_from_table` would read back from the rebuilt
table. -/
def update_table (store : Store) (ngenes : Nat) (st : PanelState) :
    PanelEvent → Except String PanelState
  | .selectionChanged tissue topic => do
    let rows ← renderPage store topic st.pos ngenes 0
    let r ← firstRank rows
    Except.ok ⟨tissue, topic, st.pos, r⟩
  | .signChanged pos => do
    let rows ← renderPage store st.topic pos ngenes 0
    let r ← firstRank rows
    Except.ok ⟨st.tissue, st.topic, pos, r⟩
  | .pageForward => do
    let rows ← renderPage store st.topic st.pos ngenes (st.pageStart + (ngenes : Int))
    let r ← firstRank rows
    Except.ok ⟨st.tissue, st.topic, st.pos, r⟩
  | .pageBack => do
    let rows ← renderPage store st.topic st.pos ngenes (st.pageStart - (ngenes : Int))
    let r ← firstRank rows
    Except.ok ⟨st.tissue, st.topic, st.pos, r⟩

/-- A sequence of UI events applied in order; any raise aborts the rest. -/
def applyEvents (store : Store) (ngenes : Nat) :
    PanelState → List PanelEvent → Except String PanelState
  | st, [] => Except.ok st
  | st, ev :: evs => do
    let st1 ← update_table store ngenes st ev
    applyEvents store ngenes st1 evs

/-! ### Ordering instances for the sort relations used by the ranking -/

instance : IsTotal (String × Rat) (fun a b => b.2 ≤ a.2) :=
  ⟨fun a b => le_total b.2 a.2⟩

instance : IsTrans (String × Rat) (fun a b => b.2 ≤ a.2) :=
  ⟨fun _ _ _ h1 h2 => le_trans h2 h1⟩

instance : IsTotal (String × Rat) (fun a b => a.2 ≤ b.2) :=
  ⟨fun a b => le_total a.2 b.2⟩

instance : IsTrans (String × Rat) (fun a b => a.2 ≤ b.2) :=
  ⟨fun _ _ _ h1 h2 => le_trans h1 h2⟩

instance : IsTotal (String × String × Rat) (fun a b => b.2.2 ≤ a.2.2) :=
  ⟨fun a b => le_total b.2.2 a.2.2⟩

instance : IsTrans (String × String × Rat) (fun a b => b.2.2 ≤ a.2.2) :=
  ⟨fun _ _ _ h1 h2 => le_trans h2 h1⟩

instance : IsTotal (String × String × Rat) (fun a b => a.2.2 ≤ b.2.2) :=
  ⟨fun a b => le_total a.2.2 b.2.2⟩

instance : IsTrans (String × String × Rat) (fun a b => a.2.2 ≤ b.2.2) :=
  ⟨fun _ _ _ h1 h2 => le_trans h1 h2⟩

/-! ### Concrete stores used by scenarios and witnesses -/

/-- Seven positive-score rows for topic k1 (the N = 7 scenario). -/
def scores7 : List (String × Rat) :=
  [("g0", 70), ("g1", 60), ("g2", 50), ("g3", 40), ("g4", 30), ("g5", 20), ("g6", 10)]

/-- Store with a single topic k1 whose positive list has 7 entries. -/
def store7 : Store := ⟨[("k1", scores7)], [("k1", [])]⟩

/-- Three positive-score rows for topic k1 (a list shorter than the page). -/
def scores3 : List (String × Rat) := [("a", 3), ("b", 2), ("c", 1)]

/-- Store with a single topic k1 whose positive list has 3 entries. -/
def store3 : Store := ⟨[("k1", scores3)], [("k1", [])]⟩

/-- Store with a single topic k1 whose ranked lists are empty. -/
def storeE : Store := ⟨[("k1", [])], [("k1", [])]⟩

/-! ### Helper lemmas on the paging pipeline -/

theorem ok_bind {α β : Type} (a : α) (f : α → Except String β) :
    (Except.ok a >>= f) = f a := rfl

theorem error_bind {α β : Type} (e : String) (f : α → Except String β) :
    ((Except.error e : Except String α) >>= f) = Except.error e := rfl

/-- With at least one displayable row and a list at least a page long, the
clamp of `_table_body` computes `min (max start 0) (N - ngenes)`. -/
theorem clampStart_eq (N ngenes : Nat) (x : Int) (h1 : 1 ≤ ngenes) (h2 : ngenes ≤ N) :
    clampStart N ngenes x = Except.ok (min (max x 0) ((N : Int) - (ngenes : Int))) := by
  have hN : ¬ (N = 0) := by omega
  unfold clampStart
  rw [if_neg hN]
  dsimp only
  congr 1
  split_ifs <;> omega

theorem _table_row_ok (scores : List (String × Rat)) (rank : Int)
    (h0 : 0 ≤ rank) (hlt : rank.toNat < scores.length) :
    _table_row scores rank =
      Except.ok ⟨rank, (scores.get ⟨rank.toNat, hlt⟩).1, (scores.get ⟨rank.toNat, hlt⟩).2⟩ := by
  unfold _table_row
  rw [dif_pos ⟨h0, hlt⟩]

/-- In-bounds row construction succeeds and yields rows whose rank and
content come from the ranked list at the expected offsets. -/
theorem buildRows_ok (scores : List (String × Rat)) :
    ∀ (k : Nat) (r : Int), 0 ≤ r → r + (k : Int) ≤ (scores.length : Int) →
      ∃ rows, buildRows scores k r = Except.ok rows ∧
        rows.length = k ∧
        ∀ i, i < k → ∃ p, scores.get? (r + (i : Int)).toNat = some p ∧
          rows.get? i = some ⟨r + (i : Int), p.1, p.2⟩ := by
  intro k
  induction k with
  | zero =>
    intro r _ _
    exact ⟨[], rfl, rfl, fun i hi => absurd hi (by omega)⟩
  | succ k ih =>
    intro r h0 hub
    have hlt : r.toNat < scores.length := by omega
    obtain ⟨rest, hrest, hlen, hget⟩ := ih (r + 1) (by omega) (by omega)
    refine ⟨⟨r, (scores.get ⟨r.toNat, hlt⟩).1, (scores.get ⟨r.toNat, hlt⟩).2⟩ :: rest, ?_, ?_, ?_⟩
    · unfold buildRows
      rw [_table_row_ok scores r h0 hlt, ok_bind, hrest, ok_bind]
    · simp [hlen]
    · intro i hi
      cases i with
      | zero =>
        refine ⟨scores.get ⟨r.toNat, hlt⟩, ?_, ?_⟩
        · simp [List.get?_eq_get hlt]
        · simp
      | succ i =>
        obtain ⟨p, hp1, hp2⟩ := hget i (by omega)
        refine ⟨p, ?_, ?_⟩
        · have : r + ((i : Int) + 1) = r + 1 + (i : Int) := by ring
          rw [show r + ((i.succ : Nat) : Int) = r + 1 + (i : Int) by push_cast; ring]
          exact hp1
        · rw [show ((i.succ : Nat) : Int) = (i : Int) + 1 by push_cast; ring]
          simpa [show r + ((i : Int) + 1) = r + 1 + (i : Int) by ring] using hp2

/-- A clamped-in-bounds start yields a full page whose first rank is the
clamped start. -/
theorem buildRows_firstRank (scores : List (String × Rat)) (ngenes : Nat) (s : Int)
    (h1 : 1 ≤ ngenes) (h0 : 0 ≤ s) (hub : s + (ngenes : Int) ≤ (scores.length : Int)) :
    ∃ rows, buildRows scores ngenes s = Except.ok rows ∧
      rows.length = ngenes ∧ firstRank rows = Except.ok s ∧
      ∀ i, i < ngenes → ∃ p, scores.get? (s + (i : Int)).toNat = some p ∧
        rows.get? i = some ⟨s + (i : Int), p.1, p.2⟩ := by
  obtain ⟨rows, hrows, hlen, hget⟩ := buildRows_ok scores ngenes s h0 hub
  refine ⟨rows, hrows, hlen, ?_, hget⟩
  obtain ⟨p, _, hp2⟩ := hget 0 (by omega)
  cases rows with
  | nil => simp at hp2
  | cons hd tl =>
    simp only [List.get?] at hp2
    cases hp2
    simp [firstRank]

/-- Evaluation of a forward-button `update_table` step when the current
ranked list is at least a page long. -/
theorem update_forward_eq (store : Store) (ngenes : Nat) (tissue topic : String)
    (pos : Bool) (start : Int) (scores : List (String × Rat))
    (hs : _get_scores store topic pos = Except.ok scores)
    (h1 : 1 ≤ ngenes) (h2 : ngenes ≤ scores.length) :
    update_table store ngenes ⟨tissue, topic, pos, start⟩ PanelEvent.pageForward =
      Except.ok ⟨tissue, topic, pos,
        min (max (start + (ngenes : Int)) 0) ((scores.length : Int) - (ngenes : Int))⟩ := by
  obtain ⟨rows, hrows, _, hfirst, _⟩ :=
    buildRows_firstRank scores ngenes
      (min (max (start + (ngenes : Int)) 0) ((scores.length : Int) - (ngenes : Int)))
      h1 (by omega) (by omega)
  simp only [update_table, renderPage, _table_body]
  rw [hs, ok_bind, clampStart_eq _ _ _ h1 h2, ok_bind, hrows, ok_bind, hfirst, ok_bind]

/-- Evaluation of a back-button `update_table` step when the current
ranked list is at least a page long. -/
theorem update_back_eq (store : Store) (ngenes : Nat) (tissue topic : String)
    (pos : Bool) (start : Int) (scores : List (String × Rat))
    (hs : _get_scores store topic pos = Except.ok scores)
    (h1 : 1 ≤ ngenes) (h2 : ngenes ≤ scores.length) :
    update_table store ngenes ⟨tissue, topic, pos, start⟩ PanelEvent.pageBack =
      Except.ok ⟨tissue, topic, pos,
        min (max (start - (ngenes : Int)) 0) ((scores.length : Int) - (ngenes : Int))⟩ := by
  obtain ⟨rows, hrows, _, hfirst, _⟩ :=
    buildRows_firstRank scores ngenes
      (min (max (start - (ngenes : Int)) 0) ((scores.length : Int) - (ngenes : Int)))
      h1 (by omega) (by omega)
  simp only [update_table, renderPage, _table_body]
  rw [hs, ok_bind, clampStart_eq _ _ _ h1 h2, ok_bind, hrows, ok_bind, hfirst, ok_bind]

/-- Evaluation of a selection-changed `update_table` step: the new key is
installed, the sign kept, and the rebuilt page starts at rank 0. -/
theorem update_sel_eq (store : Store) (ngenes : Nat) (tissue0 topic0 : String)
    (pos : Bool) (start : Int) (tissue topic : String) (scores : List (String × Rat))
    (hs : _get_scores store topic pos = Except.ok scores)
    (h1 : 1 ≤ ngenes) (h2 : ngenes ≤ scores.length) :
    update_table store ngenes ⟨tissue0, topic0, pos, start⟩
        (PanelEvent.selectionChanged tissue topic) =
      Except.ok ⟨tissue, topic, pos, 0⟩ := by
  obtain ⟨rows, hrows, _, hfirst, _⟩ :=
    buildRows_firstRank scores ngenes 0 h1 (by omega) (by omega)
  simp only [update_table, renderPage, _table_body]
  rw [hs, ok_bind]
  rw [clampStart_eq _ _ _ h1 h2]
  rw [show min (max (0 : Int) 0) ((scores.length : Int) - (ngenes : Int)) = 0 by omega]
  rw [ok_bind, hrows, ok_bind, hfirst, ok_bind]

/-- Evaluation of a sign-changed `update_table` step: the sign is installed
and the rebuilt page starts at rank 0. -/
theorem update_sign_eq (store : Store) (ngenes : Nat) (tissue topic : String)
    (pos0 : Bool) (start : Int) (pos : Bool) (scores : List (String × Rat))
    (hs : _get_scores store topic pos = Except.ok scores)
    (h1 : 1 ≤ ngenes) (h2 : ngenes ≤ scores.length) :
    update_table store ngenes ⟨tissue, topic, pos0, start⟩ (PanelEvent.signChanged pos) =
      Except.ok ⟨tissue, topic, pos, 0⟩ := by
  obtain ⟨rows, hrows, _, hfirst, _⟩ :=
    buildRows_firstRank scores ngenes 0 h1 (by omega) (by omega)
  simp only [update_table, renderPage, _table_body]
  rw [hs, ok_bind]
  rw [clampStart_eq _ _ _ h1 h2]
  rw [show min (max (0 : Int) 0) ((scores.length : Int) - (ngenes : Int)) = 0 by omega]
  rw [ok_bind, hrows, ok_bind, hfirst, ok_bind]

/-! ### Claim C1: paging clamp bounds -/

/-- Claim C1, counterexample.  With N = 3 and pageSize = 5, the clamp of
`_table_body` produces the negative start N - pageSize = -2 (the lower
clamp runs before the upper one), and the forward-page event on the
3-element list raises `KeyError` instead of yielding a clamped state: the
claimed invariant `0 <= pageStart` fails when N < pageSize. -/
theorem paging_clamp_bounds_cex :
    clampStart 3 5 5 = Except.ok (-2) ∧ (-2 : Int) < 0 ∧
    update_table store3 5 ⟨"BM", "k1", true, 0⟩ PanelEvent.pageForward =
      Except.error "KeyError" :=
  ⟨rfl, by decide, rfl⟩

/-- Claim C1 (amended): when the ranked list has at least `pageSize`
entries, every sequence of forward/back paging events succeeds and keeps
`pageStart` within `[0, N - pageSize]`; for `0 < N < pageSize` the clamp
instead produces the negative start `N - pageSize` and the page update
raises (see the counterexample). -/
theorem paging_clamp_bounds (store : Store) (ngenes : Nat) (tissue topic : String)
    (pos : Bool) (scores : List (String × Rat)) (start0 : Int)
    (hs : _get_scores store topic pos = Except.ok scores)
    (h1 : 1 ≤ ngenes) (h2 : ngenes ≤ scores.length)
    (hstart : 0 ≤ start0 ∧ start0 + (ngenes : Int) ≤ (scores.length : Int))
    (evs : List PanelEvent)
    (hevs : ∀ ev ∈ evs, ev = PanelEvent.pageForward ∨ ev = PanelEvent.pageBack) :
    ∃ st : PanelState,
      applyEvents store ngenes ⟨tissue, topic, pos, start0⟩ evs = Except.ok st ∧
      st.tissue = tissue ∧ st.topic = topic ∧ st.pos = pos ∧
      0 ≤ st.pageStart ∧ st.pageStart + (ngenes : Int) ≤ (scores.length : Int) := by
  induction evs generalizing start0 with
  | nil =>
    exact ⟨⟨tissue, topic, pos, start0⟩, rfl, rfl, rfl, rfl, hstart.1, hstart.2⟩
  | cons ev evs ih =>
    have htail : ∀ e ∈ evs, e = PanelEvent.pageForward ∨ e = PanelEvent.pageBack :=
      fun e he => hevs e (List.mem_cons_of_mem _ he)
    rcases hevs ev (List.mem_cons_self ev evs) with hev | hev <;> subst hev
    · obtain ⟨st, hst, h3, h4, h5, h6, h7⟩ :=
        ih (min (max (start0 + (ngenes : Int)) 0) ((scores.length : Int) - (ngenes : Int)))
          ⟨by omega, by omega⟩ htail
      refine ⟨st, ?_, h3, h4, h5, h6, h7⟩
      simp only [applyEvents]
      rw [update_forward_eq store ngenes tissue topic pos start0 scores hs h1 h2, ok_bind]
      exact hst
    · obtain ⟨st, hst, h3, h4, h5, h6, h7⟩ :=
        ih (min (max (start0 - (ngenes : Int)) 0) ((scores.length : Int) - (ngenes : Int)))
          ⟨by omega, by omega⟩ htail
      refine ⟨st, ?_, h3, h4, h5, h6, h7⟩
      simp only [applyEvents]
      rw [update_back_eq store ngenes tissue topic pos start0 scores hs h1 h2, ok_bind]
      exact hst

/-- Claim C1 witness: three paging events on the 7-row store stay in
bounds. -/
theorem paging_clamp_bounds_witness :
    ∃ st : PanelState,
      applyEvents store7 5 ⟨"BM", "k1", true, 0⟩
          [PanelEvent.pageForward, PanelEvent.pageForward, PanelEvent.pageBack] =
        Except.ok st ∧
      st.tissue = "BM" ∧ st.topic = "k1" ∧ st.pos = true ∧
      0 ≤ st.pageStart ∧ st.pageStart + ((5 : Nat) : Int) ≤ ((scores7.length : Nat) : Int) :=
  paging_clamp_bounds store7 5 "BM" "k1" true scores7 0 rfl (by decide) (by decide)
    ⟨by decide, by decide⟩ _ (by decide)

/-! ### Claim C2: the rendered page window -/

/-- Claim C2, counterexample.  With pageSize = 5 and N = 7, one forward
page from `pageStart = 0` yields `pageStart = 2` (clamped immediately), not
5, and the page rebuilt for requested start 5 holds the five ranks 2..6,
not the two ranks [5, 6]. -/
theorem renderPage_window_cex :
    update_table store7 5 ⟨"BM", "k1", true, 0⟩ PanelEvent.pageForward =
      Except.ok ⟨"BM", "k1", true, 2⟩ ∧
    (2 : Int) ≠ 5 ∧
    (_table_body scores7 5 5).map (fun rows => rows.map Row.rank) =
      Except.ok [2, 3, 4, 5, 6] :=
  ⟨rfl, by decide, rfl⟩

/-- Claim C2 (amended): when N >= pageSize, `_table_body` always renders
exactly `pageSize` rows, one per rank in `[s, s + pageSize)` for the
clamped start `s`, a window contained in `[0, N)` — never a partial page;
in the pageSize = 5, N = 7 scenario one forward page from 0 clamps to
`pageStart = 2` (page = ranks 2..6) and a further forward page stays at 2. -/
theorem renderPage_window (scores : List (String × Rat)) (ngenes : Nat) (start : Int)
    (h1 : 1 ≤ ngenes) (h2 : ngenes ≤ scores.length) :
    (∃ s rows, _table_body scores ngenes start = Except.ok rows ∧
       0 ≤ s ∧ s + (ngenes : Int) ≤ (scores.length : Int) ∧
       rows.length = ngenes ∧
       ∀ i : Nat, i < ngenes → ∃ p, scores.get? (s + (i : Int)).toNat = some p ∧
         rows.get? i = some ⟨s + (i : Int), p.1, p.2⟩) ∧
    update_table store7 5 ⟨"BM", "k1", true, 0⟩ PanelEvent.pageForward =
      Except.ok ⟨"BM", "k1", true, 2⟩ ∧
    update_table store7 5 ⟨"BM", "k1", true, 2⟩ PanelEvent.pageForward =
      Except.ok ⟨"BM", "k1", true, 2⟩ ∧
    (_table_body scores7 5 5).map (fun rows => rows.map Row.rank) =
      Except.ok [2, 3, 4, 5, 6] := by
  refine ⟨?_, rfl, rfl, rfl⟩
  obtain ⟨rows, hrows, hlen, _, hget⟩ :=
    buildRows_firstRank scores ngenes
      (min (max start 0) ((scores.length : Int) - (ngenes : Int)))
      h1 (by omega) (by omega)
  refine ⟨min (max start 0) ((scores.length : Int) - (ngenes : Int)), rows, ?_,
    by omega, by omega, hlen, hget⟩
  unfold _table_body
  rw [clampStart_eq _ _ _ h1 h2, ok_bind, hrows]

/-- Claim C2 witness: the window property at the 7-row list with requested
start 7. -/
theorem renderPage_window_witness :
    (∃ s rows, _table_body scores7 5 7 = Except.ok rows ∧
       0 ≤ s ∧ s + ((5 : Nat) : Int) ≤ ((scores7.length : Nat) : Int) ∧
       rows.length = 5 ∧
       ∀ i : Nat, i < 5 → ∃ p, scores7.get? (s + (i : Int)).toNat = some p ∧
         rows.get? i = some ⟨s + (i : Int), p.1, p.2⟩) ∧
    update_table store7 5 ⟨"BM", "k1", true, 0⟩ PanelEvent.pageForward =
      Except.ok ⟨"BM", "k1", true, 2⟩ ∧
    update_table store7 5 ⟨"BM", "k1", true, 2⟩ PanelEvent.pageForward =
      Except.ok ⟨"BM", "k1", true, 2⟩ ∧
    (_table_body scores7 5 5).map (fun rows => rows.map Row.rank) =
      Except.ok [2, 3, 4, 5, 6] :=
  renderPage_window scores7 5 7 (by decide) (by decide)

/-! ### Claim C3: selection events with unknown keys -/

/-- Claim C3, counterexample.  A selection event carrying the key
(SP, k9), absent from the k1-only store, raises `KeyError` in
`_get_scores` while the table callback rebuilds the page — it is not a
silent no-op. -/
theorem unknown_key_keyerror_cex :
    update_table store7 5 ⟨"BM", "k1", true, 0⟩
        (PanelEvent.selectionChanged "SP" "k9") = Except.error "KeyError" :=
  rfl

/-- Claim C3 (amended): a selection-changed event whose topic is not a key
of the panel score dictionary for the current sign makes the table update
raise `KeyError` (`update_title` installs the new title without any
validity check, and the table rebuild then fails); it is not a silent
no-op. -/
theorem unknown_key_keyerror (store : Store) (ngenes : Nat) (tissue0 topic0 : String)
    (pos : Bool) (start : Int) (tissue topic : String)
    (h : ((if pos then store.pos_scores else store.neg_scores).find?
            (fun e => decide (e.1 = topic))) = none) :
    update_table store ngenes ⟨tissue0, topic0, pos, start⟩
        (PanelEvent.selectionChanged tissue topic) = Except.error "KeyError" := by
  have hg : _get_scores store topic pos = Except.error "KeyError" := by
    unfold _get_scores
    rw [h]
  simp only [update_table, renderPage, _table_body]
  rw [hg, error_bind, error_bind]

/-- Claim C3 witness: the unknown key (SP, k9) against the k1-only store. -/
theorem unknown_key_keyerror_witness :
    update_table store7 5 ⟨"BM", "k1", true, 0⟩
        (PanelEvent.selectionChanged "SP" "k9") = Except.error "KeyError" :=
  unknown_key_keyerror store7 5 "BM" "k1" true 0 "SP" "k9" rfl

/-! ### Claim C4: rendering the empty ranked list -/

/-- Claim C4, counterexample.  When the ranked list for the selection is
empty (N = 0), `renderPage` raises `ValueError` (Python `max()` over the
empty index in `_table_body`), instead of returning an empty page with no
error. -/
theorem empty_list_valueerror_cex :
    renderPage storeE "k1" true 5 0 = Except.error "ValueError" :=
  rfl

/-- Claim C4 (amended): whenever the ranked list for the current selection
is empty, `renderPage` raises `ValueError` — `max(scores.index)` in
`_table_body` fails on an empty index — rather than producing an empty
page. -/
theorem empty_list_valueerror (store : Store) (topic : String) (pos : Bool)
    (ngenes : Nat) (start : Int)
    (h : _get_scores store topic pos = Except.ok []) :
    renderPage store topic pos ngenes start = Except.error "ValueError" := by
  unfold renderPage _table_body
  rw [h, ok_bind]
  rfl

/-- Claim C4 witness: the empty k1 list. -/
theorem empty_list_valueerror_witness :
    renderPage storeE "k1" true 5 0 = Except.error "ValueError" :=
  empty_list_valueerror storeE "k1" true 5 0 rfl

/-! ### Claim C6: selection and sign changes reset the page -/

/-- Claim C6, counterexample.  k1 is a valid key of the 3-row store, yet
the selection-changed event raises `KeyError` (the reset start 0 is
clamped to the negative 3 - 5 = -2 and the row lookup fails), so the event
does not set `pageStart = 0` when the ranked list is shorter than the
page. -/
theorem selection_sign_reset_cex :
    ("k1", scores3) ∈ store3.pos_scores ∧
    update_table store3 5 ⟨"BM", "k1", true, 0⟩
        (PanelEvent.selectionChanged "BM" "k1") = Except.error "KeyError" :=
  ⟨by decide, rfl⟩

/-- Claim C6 (amended): provided the ranked list of the target selection
has at least `pageSize` entries, a selection-changed event installs the new
key and resets `pageStart` to 0 while preserving the sign, and a
sign-changed event installs the sign and resets `pageStart` to 0 —
regardless of the prior `pageStart`; for shorter lists the update raises
instead (see the counterexample). -/
theorem selection_sign_reset (store : Store) (ngenes : Nat)
    (tissue0 topic0 : String) (pos0 : Bool) (start0 : Int)
    (tissue topic : String) (pos : Bool)
    (scoresA scoresB : List (String × Rat))
    (hA : _get_scores store topic pos0 = Except.ok scoresA)
    (h1 : 1 ≤ ngenes) (h2A : ngenes ≤ scoresA.length)
    (hB : _get_scores store topic0 pos = Except.ok scoresB)
    (h2B : ngenes ≤ scoresB.length) :
    update_table store ngenes ⟨tissue0, topic0, pos0, start0⟩
        (PanelEvent.selectionChanged tissue topic) =
      Except.ok ⟨tissue, topic, pos0, 0⟩ ∧
    update_table store ngenes ⟨tissue0, topic0, pos0, start0⟩
        (PanelEvent.signChanged pos) =
      Except.ok ⟨tissue0, topic0, pos, 0⟩ :=
  ⟨update_sel_eq store ngenes tissue0 topic0 pos0 start0 tissue topic scoresA hA h1 h2A,
   update_sign_eq store ngenes tissue0 topic0 pos0 start0 pos scoresB hB h1 h2B⟩

/-- Claim C6 witness: selection and sign events on the 7-row store from
prior `pageStart = 9`. -/
theorem selection_sign_reset_witness :
    update_table store7 5 ⟨"BM", "k1", true, 9⟩
        (PanelEvent.selectionChanged "SP" "k1") =
      Except.ok ⟨"SP", "k1", true, 0⟩ ∧
    update_table store7 5 ⟨"BM", "k1", true, 9⟩
        (PanelEvent.signChanged true) =
      Except.ok ⟨"BM", "k1", true, 0⟩ :=
  selection_sign_reset store7 5 "BM" "k1" true 9 "SP" "k1" true scores7 scores7
    rfl (by decide) (by decide) rfl (by decide)

/-! ### Claim C7: forward-back round trip -/

/-- Claim C7: from `pageStart = 0` with N > pageSize, a forward page
followed by a back page returns the panel to exactly the initial state
(`pageStart = 0`), so the subsequent render — a function of that state —
is the same page as the initial render. -/
theorem page_round_trip (store : Store) (ngenes : Nat) (tissue topic : String)
    (pos : Bool) (scores : List (String × Rat))
    (hs : _get_scores store topic pos = Except.ok scores)
    (h1 : 1 ≤ ngenes) (h2 : ngenes < scores.length) :
    applyEvents store ngenes ⟨tissue, topic, pos, 0⟩
        [PanelEvent.pageForward, PanelEvent.pageBack] =
      Except.ok ⟨tissue, topic, pos, 0⟩ := by
  have h2' : ngenes ≤ scores.length := le_of_lt h2
  simp only [applyEvents]
  rw [update_forward_eq store ngenes tissue topic pos 0 scores hs h1 h2', ok_bind]
  rw [update_back_eq store ngenes tissue topic pos _ scores hs h1 h2', ok_bind]
  rw [show min (max (min (max ((0 : Int) + (ngenes : Int)) 0)
        ((scores.length : Int) - (ngenes : Int)) - (ngenes : Int)) 0)
        ((scores.length : Int) - (ngenes : Int)) = 0 by omega]

/-- Claim C7 witness: round trip on the 7-row store with pageSize 5. -/
theorem page_round_trip_witness :
    applyEvents store7 5 ⟨"BM", "k1", true, 0⟩
        [PanelEvent.pageForward, PanelEvent.pageBack] =
      Except.ok ⟨"BM", "k1", true, 0⟩ :=
  page_round_trip store7 5 "BM" "k1" true scores7 rfl (by decide) (by decide)

/-! ### Claim C5: the ranking partitions and sorts -/

/-- Claim C5: for every list of (gene, score) rows of a topic column, the
positive ranked list is exactly the strictly-positive rows sorted
descending by score, the negative ranked list is exactly the
strictly-negative rows sorted ascending (most negative first), zero-score
rows appear in neither, and ranks are the contiguous zero-based list
positions after `reset_index(drop = True)`; the per-(tissue, topic) lists
of the tissue-scoped variant behave the same on the rows of one tissue.
In the concrete scenario {A: 3, B: -1, C: 5, D: 0} for topic k1, the loaded
store has positive list [C(5), A(3)], negative list [B(-1)], and D in
neither. -/
theorem ranked_partition_sorted :
    (∀ rows : List (String × Rat),
      List.Sorted (fun a b => b.2 ≤ a.2) (rankPos rows) ∧
      (rankPos rows).Perm (rows.filter (fun p => decide (0 < p.2))) ∧
      List.Sorted (fun a b => a.2 ≤ b.2) (rankNeg rows) ∧
      (rankNeg rows).Perm (rows.filter (fun p => decide (p.2 < 0))) ∧
      (∀ p ∈ rows, p.2 = 0 → p ∉ rankPos rows ∧ p ∉ rankNeg rows)) ∧
    (∀ (rows : List (String × String × Rat)) (tissue : String),
      List.Sorted (fun a b => b.2.2 ≤ a.2.2) (tissueRankPos rows tissue) ∧
      (tissueRankPos rows tissue).Perm
        ((tissueRows rows tissue).filter (fun p => decide (0 < p.2.2))) ∧
      List.Sorted (fun a b => a.2.2 ≤ b.2.2) (tissueRankNeg rows tissue) ∧
      (tissueRankNeg rows tissue).Perm
        ((tissueRows rows tissue).filter (fun p => decide (p.2.2 < 0)))) ∧
    _read_scores ⟨["gene", "k1"], fun _ => [("A", 3), ("B", -1), ("C", 5), ("D", 0)]⟩ =
      Except.ok ⟨[("k1", [("C", 5), ("A", 3)])], [("k1", [("B", -1)])]⟩ := by
  refine ⟨fun rows => ⟨?_, ?_, ?_, ?_, ?_⟩, fun rows tissue => ⟨?_, ?_, ?_, ?_⟩, rfl⟩
  · exact List.sorted_insertionSort _ _
  · exact List.perm_insertionSort _ _
  · exact List.sorted_insertionSort _ _
  · exact List.perm_insertionSort _ _
  · intro p _ h0
    constructor
    · intro hmem
      have hf : p ∈ rows.filter (fun p => decide (0 < p.2)) :=
        (List.perm_insertionSort _ _).mem_iff.mp hmem
      have : (0 : Rat) < p.2 := of_decide_eq_true (List.mem_filter.mp hf).2
      rw [h0] at this
      exact lt_irrefl 0 this
    · intro hmem
      have hf : p ∈ rows.filter (fun p => decide (p.2 < 0)) :=
        (List.perm_insertionSort _ _).mem_iff.mp hmem
      have : p.2 < (0 : Rat) := of_decide_eq_true (List.mem_filter.mp hf).2
      rw [h0] at this
      exact lt_irrefl 0 this
  · exact List.sorted_insertionSort _ _
  · exact List.perm_insertionSort _ _
  · exact List.sorted_insertionSort _ _
  · exact List.perm_insertionSort _ _

/-- Claim C5 witness: in the concrete scenario the zero-score row D is in
neither ranked list. -/
theorem ranked_partition_sorted_witness :
    (("D", (0 : Rat)) ∉ rankPos [("A", 3), ("B", -1), ("C", 5), ("D", 0)]) ∧
    (("D", (0 : Rat)) ∉ rankNeg [("A", 3), ("B", -1), ("C", 5), ("D", 0)]) :=
  (ranked_partition_sorted.1 [("A", 3), ("B", -1), ("C", 5), ("D", 0)]).2.2.2.2
    ("D", (0 : Rat)) (by decide) rfl

/-! ### Claim C8: load-time validation -/

/-- Claim C8, counterexample.  A source table with a `gene` column and zero
topic columns is NOT rejected at load time: `_read_scores` succeeds and
produces an empty ScoreStore. -/
theorem read_scores_load_cex :
    _read_scores ⟨["gene"], fun _ => []⟩ = Except.ok ⟨[], []⟩ :=
  rfl

/-- Claim C8 (amended): loading raises `KeyError` when the source table has
at least one topic column but no `gene` column (the column selection
`score_mat[['gene', topic]]` fails); a table whose header has a first
column and zero further topic columns loads without error into an empty
ScoreStore — there is no dedicated load-time validation. -/
theorem read_scores_load (m : ScoreMat) :
    ("gene" ∉ m.cols → m.cols.drop 1 ≠ [] → _read_scores m = Except.error "KeyError") ∧
    (m.cols.drop 1 = [] → _read_scores m = Except.ok ⟨[], []⟩) := by
  constructor
  · intro hgene hne
    obtain ⟨t, rest, hd⟩ : ∃ t rest, m.cols.drop 1 = t :: rest := by
      cases h : m.cols.drop 1 with
      | nil => exact absurd h hne
      | cons t rest => exact ⟨t, rest, rfl⟩
    unfold _read_scores
    rw [hd]
    simp only [exMapM]
    rw [if_neg hgene, error_bind, error_bind]
  · intro hd
    unfold _read_scores
    rw [hd]
    rfl

/-- Claim C8 witness: a gene-less two-column table raises, a topic-less
one-column table loads empty. -/
theorem read_scores_load_witness :
    _read_scores ⟨["x", "k1"], fun _ => []⟩ = Except.error "KeyError" ∧
    _read_scores ⟨["gene"], fun _ => []⟩ = Except.ok ⟨[], []⟩ :=
  ⟨(read_scores_load ⟨["x", "k1"], fun _ => []⟩).1 (by decide) (by decide),
   (read_scores_load ⟨["gene"], fun _ => []⟩).2 rfl⟩

/-! ### Decimal printing and parsing round trip -/

theorem digChar_isDigit (d : Nat) : pyIsDigit (digChar d) = true := by
  unfold digChar
  split <;> decide

theorem digChar_ne_underscore (d : Nat) : ¬ digChar d = '_' := by
  unfold digChar
  split <;> decide

theorem digChar_val (d : Nat) (hd : d < 10) : digVal (digChar d) = d := by
  interval_cases d <;> decide

theorem natDigsAux_digits : ∀ (fuel n : Nat), n < fuel →
    ∀ c ∈ natDigsAux fuel n, pyIsDigit c = true := by
  intro fuel
  induction fuel with
  | zero => intro n h; omega
  | succ f ih =>
    intro n h c hc
    unfold natDigsAux at hc
    by_cases h10 : n < 10
    · rw [if_pos h10] at hc
      simp only [List.mem_singleton] at hc
      subst hc
      exact digChar_isDigit n
    · rw [if_neg h10] at hc
      rcases List.mem_append.mp hc with h1 | h2
      · exact ih (n / 10) (by omega) c h1
      · simp only [List.mem_singleton] at h2
        subst h2
        exact digChar_isDigit _

theorem natDigsAux_ne_nil (f n : Nat) : natDigsAux (f + 1) n ≠ [] := by
  unfold natDigsAux
  split <;> simp

theorem pyDigitsAux_cons_digit (c : Char) (rest : List Char) (acc : Nat)
    (hu : ¬ c = '_') (hd : pyIsDigit c = true) :
    pyDigitsAux (c :: rest) acc = pyDigitsAux rest (acc * 10 + digVal c) := by
  conv_lhs => rw [pyDigitsAux.eq_def]
  simp only [if_neg hu, if_pos hd]

theorem pyDigitsAux_natDigsAux : ∀ (fuel n acc : Nat) (rest : List Char), n < fuel →
    pyDigitsAux (natDigsAux fuel n ++ rest) acc =
      pyDigitsAux rest (acc * 10 ^ (natDigsAux fuel n).length + n) := by
  intro fuel
  induction fuel with
  | zero => intro n acc rest h; omega
  | succ f ih =>
    intro n acc rest h
    by_cases h10 : n < 10
    · rw [show natDigsAux (f + 1) n = [digChar n] from by rw [natDigsAux, if_pos h10]]
      rw [List.singleton_append, List.length_singleton, pow_one]
      rw [pyDigitsAux_cons_digit _ _ _ (digChar_ne_underscore n) (digChar_isDigit n)]
      rw [digChar_val n h10]
    · rw [show natDigsAux (f + 1) n = natDigsAux f (n / 10) ++ [digChar (n % 10)] from by
        rw [natDigsAux, if_neg h10]]
      rw [List.append_assoc, List.singleton_append,
        ih (n / 10) acc (digChar (n % 10) :: rest) (by omega)]
      rw [pyDigitsAux_cons_digit _ _ _ (digChar_ne_underscore _) (digChar_isDigit _)]
      rw [digChar_val (n % 10) (by omega)]
      congr 1
      rw [List.length_append, List.length_singleton, pow_succ]
      have hmod : (n / 10) * 10 + n % 10 = n := by omega
      calc (acc * 10 ^ (natDigsAux f (n / 10)).length + n / 10) * 10 + n % 10
          = acc * (10 ^ (natDigsAux f (n / 10)).length * 10) + ((n / 10) * 10 + n % 10) := by
            ring
        _ = acc * (10 ^ (natDigsAux f (n / 10)).length * 10) + n := by rw [hmod]

theorem pyDigits_natDigs (n : Nat) : pyDigits? (natDigs n) = some n := by
  have haux := pyDigitsAux_natDigsAux (n + 1) n 0 [] (by omega)
  rw [List.append_nil] at haux
  unfold pyDigits? natDigs
  cases hd : natDigsAux (n + 1) n with
  | nil => exact absurd hd (natDigsAux_ne_nil n n)
  | cons c cs =>
    have hdig : pyIsDigit c = true :=
      natDigsAux_digits (n + 1) n (by omega) c (by rw [hd]; exact List.mem_cons_self c cs)
    rw [hd] at haux
    simp only [hd, if_pos hdig]
    rw [haux]
    simp [pyDigitsAux]

theorem dropWhile_eq_self {α : Type} (p : α → Bool) (l : List α)
    (h : ∀ c ∈ l, p c = false) : l.dropWhile p = l := by
  cases l with
  | nil => rfl
  | cons a as =>
    have ha := h a (List.mem_cons_self a as)
    simp [List.dropWhile_cons, ha]

theorem natDigs_not_ws (n : Nat) : ∀ c ∈ natDigs n, isWs c = false := by
  intro c hc
  have h2 := natDigsAux_digits (n + 1) n (by omega) c hc
  simp only [pyIsDigit, Bool.and_eq_true, decide_eq_true_eq] at h2
  simp only [isWs, Bool.or_eq_false_iff, decide_eq_false_iff_not]
  omega

theorem pyInt?_digits (cs : List Char) (hne : cs ≠ []) (hdig : ∀ c ∈ cs, pyIsDigit c = true) :
    pyInt? (String.mk cs) = (pyDigits? cs).map (fun k => (k : Int)) := by
  have hws : ∀ c ∈ cs, isWs c = false := by
    intro c hc
    have h2 := hdig c hc
    simp only [pyIsDigit, Bool.and_eq_true, decide_eq_true_eq] at h2
    simp only [isWs, Bool.or_eq_false_iff, decide_eq_false_iff_not]
    omega
  unfold pyInt?
  simp only
  rw [dropWhile_eq_self isWs cs hws]
  rw [dropWhile_eq_self isWs cs.reverse (fun c hc => hws c (List.mem_reverse.mp hc))]
  rw [List.reverse_reverse]
  cases cs with
  | nil => exact absurd rfl hne
  | cons c cs' =>
    have hc := hdig c (List.mem_cons_self c cs')
    simp only [pyIsDigit, Bool.and_eq_true, decide_eq_true_eq] at hc
    have hne1 : ¬ c = '-' := by
      intro h
      rw [h] at hc
      have h45 : ('-').toNat = 45 := rfl
      omega
    have hne2 : ¬ c = '+' := by
      intro h
      rw [h] at hc
      have h43 : ('+').toNat = 43 := rfl
      omega
    simp only [if_neg hne1, if_neg hne2]

theorem pyInt_natDigs (n : Nat) : pyInt? (String.mk (natDigs n)) = some (n : Int) := by
  rw [pyInt?_digits (natDigs n) (natDigsAux_ne_nil n n)
    (natDigsAux_digits (n + 1) n (by omega)), pyDigits_natDigs]
  rfl

theorem natDigs_inj {a b : Nat} (h : natDigs a = natDigs b) : a = b := by
  have ha := pyDigits_natDigs a
  rw [h, pyDigits_natDigs b] at ha
  exact (Option.some_inj.mp ha).symm

theorem intStr_ofNat (n : Nat) : intStr (n : Int) = String.mk (natDigs n) := by
  unfold intStr
  rw [if_neg (by omega : ¬ ((n : Int) < 0))]
  rw [Int.natAbs_ofNat]

/-! ### np.unique and categorical code lemmas -/

theorem sortedUniq_pairwise (l : List Int) :
    (sortedUniq l).Pairwise (fun a b => a < b) := by
  have hs : (l.insertionSort (fun a b => a ≤ b)).Pairwise (fun a b => a ≤ b) :=
    List.sorted_insertionSort _ l
  have hle : (sortedUniq l).Pairwise (fun a b => a ≤ b) :=
    List.Pairwise.sublist (List.dedup_sublist _) hs
  have hne : (sortedUniq l).Pairwise (fun a b => a ≠ b) := List.nodup_dedup _
  exact (hle.and hne).imp (fun h => lt_of_le_of_ne h.1 h.2)

theorem mem_sortedUniq (l : List Int) (a : Int) : a ∈ sortedUniq l ↔ a ∈ l := by
  unfold sortedUniq
  rw [List.mem_dedup, List.mem_insertionSort]

theorem listIdxOf?_mem {α : Type} [DecidableEq α] (l : List α) (a : α) (h : a ∈ l) :
    ∃ k, listIdxOf? l a = some k := by
  induction l with
  | nil => simp at h
  | cons b bs ih =>
    by_cases hab : a = b
    · exact ⟨0, by unfold listIdxOf?; rw [if_pos hab]⟩
    · have hmem : a ∈ bs := by
        rcases List.mem_cons.mp h with h1 | h2
        · exact absurd h1 hab
        · exact h2
      obtain ⟨k, hk⟩ := ih hmem
      exact ⟨k + 1, by unfold listIdxOf?; rw [if_neg hab, hk]; rfl⟩

theorem mem_of_listIdxOf? {α : Type} [DecidableEq α] :
    ∀ (l : List α) (a : α) (k : Nat), listIdxOf? l a = some k → a ∈ l := by
  intro l
  induction l with
  | nil => intro a k h; simp [listIdxOf?] at h
  | cons b bs ih =>
    intro a k h
    unfold listIdxOf? at h
    by_cases hab : a = b
    · subst hab
      exact List.mem_cons_self a bs
    · rw [if_neg hab] at h
      cases hk : listIdxOf? bs a with
      | none => rw [hk] at h; simp at h
      | some k2 => exact List.mem_cons_of_mem _ (ih a k2 hk)

theorem listIdxOf?_map {α β : Type} [DecidableEq α] [DecidableEq β] (f : α → β) :
    ∀ (l : List α) (a : α), (∀ x ∈ l, f x = f a → x = a) →
      listIdxOf? (l.map f) (f a) = listIdxOf? l a := by
  intro l
  induction l with
  | nil => intro a _; rfl
  | cons b bs ih =>
    intro a hinj
    have hiff : (f a = f b) ↔ (a = b) :=
      ⟨fun h => (hinj b (List.mem_cons_self b bs) h.symm).symm, fun h => by rw [h]⟩
    simp only [List.map]
    unfold listIdxOf?
    by_cases hab : a = b
    · rw [if_pos (hiff.mpr hab), if_pos hab]
    · rw [if_neg (fun h => hab (hiff.mp h)), if_neg hab,
        ih a (fun x hx => hinj x (List.mem_cons_of_mem _ hx))]

theorem listIdxOf?_lt_of_pairwise :
    ∀ (l : List Int), l.Pairwise (fun a b => a < b) →
    ∀ (a b : Int) (ka kb : Nat), listIdxOf? l a = some ka →
      listIdxOf? l b = some kb → a < b → ka < kb := by
  intro l
  induction l with
  | nil => intro _ a b ka kb ha; simp [listIdxOf?] at ha
  | cons x xs ih =>
    intro hp a b ka kb ha hb hab
    have hp' := List.pairwise_cons.mp hp
    unfold listIdxOf? at ha hb
    by_cases hax : a = x
    · rw [if_pos hax] at ha
      by_cases hbx : b = x
    -- a = x = b contradicts a < b
      · exfalso
        rw [hax, hbx] at hab
        exact lt_irrefl x hab
      · rw [if_neg hbx] at hb
        cases hk : listIdxOf? xs b with
        | none => rw [hk] at hb; simp at hb
        | some kb2 =>
          rw [hk] at hb
          simp at ha hb
          omega
    · rw [if_neg hax] at ha
      by_cases hbx : b = x
      · exfalso
        subst hbx
        cases hk : listIdxOf? xs a with
        | none => rw [hk] at ha; simp at ha
        | some ka2 =>
          have hmem := mem_of_listIdxOf? xs a ka2 hk
          exact lt_asymm hab (hp'.1 a hmem)
      · rw [if_neg hbx] at hb
        cases hka : listIdxOf? xs a with
        | none => rw [hka] at ha; simp at ha
        | some ka2 =>
          cases hkb : listIdxOf? xs b with
          | none => rw [hkb] at hb; simp at hb
          | some kb2 =>
            rw [hka] at ha
            rw [hkb] at hb
            simp at ha hb
            have := ih hp'.2 a b ka2 kb2 hka hkb hab
            omega

theorem exMapM_map_ok {α β γ : Type} (f : β → Except String γ) (g : α → β) (h : α → γ) :
    ∀ l : List α, (∀ a ∈ l, f (g a) = Except.ok (h a)) →
      exMapM f (l.map g) = Except.ok (l.map h) := by
  intro l
  induction l with
  | nil => intro _; rfl
  | cons a as ih =>
    intro hl
    simp only [List.map]
    unfold exMapM
    rw [hl a (List.mem_cons_self a as), ok_bind,
      ih (fun x hx => hl x (List.mem_cons_of_mem _ hx)), ok_bind]

theorem parseNum_label (c : Char) (m : Nat) :
    parseNum (String.mk (c :: natDigs m)) = Except.ok ((m : Nat) : Int) := by
  have hsl : pySlice1 (String.mk (c :: natDigs m)) = String.mk (natDigs m) := rfl
  unfold parseNum
  rw [hsl, pyInt_natDigs m]

theorem catLabel_ofNat (c : Char) (m : Nat) :
    catLabel c ((m : Nat) : Int) = String.mk (c :: natDigs m) := by
  unfold catLabel
  rw [intStr_ofNat]


theorem order_strings_eval (c : Char) (m0 : Nat) (ms' : List Nat) :
    _order_strings ((m0 :: ms').map (fun m => String.mk (c :: natDigs m))) =
      Except.ok
        ((sortedUniq ((m0 :: ms').map (fun m => ((m : Nat) : Int)))).map (catLabel c),
         ((m0 :: ms').map (fun m => String.mk (c :: natDigs m))).map
           (fun s => listIdxOf?
             ((sortedUniq ((m0 :: ms').map (fun m => ((m : Nat) : Int)))).map (catLabel c)) s)) := by
  have hmap : exMapM parseNum ((m0 :: ms').map (fun m => String.mk (c :: natDigs m))) =
      Except.ok ((m0 :: ms').map (fun m => ((m : Nat) : Int))) :=
    exMapM_map_ok parseNum _ _ _ (fun a _ => parseNum_label c a)
  unfold _order_strings
  rw [hmap, ok_bind]
  rfl

/-- Claim C9: for every nonempty series of labels letter-plus-decimal (one
shared letter `c`, arbitrary numeric suffixes), `_order_strings` succeeds
and assigns category codes ordered exactly by the numeric suffix values:
code of label i is below code of label j precisely when suffix i < suffix
j.  In particular, on ["d2", "d10"] the categories are ["d2", "d10"] with
codes [0, 1] — d2 precedes d10, unlike the lexicographic order. -/
theorem timepoint_numeric_order (c : Char) (ms : List Nat) (hne : ms ≠ []) :
    (∃ cats codes,
      _order_strings (ms.map (fun m => String.mk (c :: natDigs m))) =
        Except.ok (cats, codes) ∧
      ∀ (i j mi mj : Nat),
        ms.get? i = some mi → ms.get? j = some mj →
        ∃ ki kj, codes.get? i = some (some ki) ∧ codes.get? j = some (some kj) ∧
          (ki < kj ↔ mi < mj)) ∧
    _order_strings ["d2", "d10"] = Except.ok (["d2", "d10"], [some 0, some 1]) := by
  constructor
  · obtain ⟨m0, ms', rfl⟩ : ∃ m0 ms', ms = m0 :: ms' := by
      cases ms with
      | nil => exact absurd rfl hne
      | cons m0 ms' => exact ⟨m0, ms', rfl⟩
    refine ⟨_, _, order_strings_eval c m0 ms', ?_⟩
    intro i j mi mj hi hj
    have hval : ∀ mi : Nat, mi ∈ (m0 :: ms') →
        listIdxOf?
          ((sortedUniq ((m0 :: ms').map (fun m => ((m : Nat) : Int)))).map (catLabel c))
          (String.mk (c :: natDigs mi)) =
        listIdxOf? (sortedUniq ((m0 :: ms').map (fun m => ((m : Nat) : Int))))
          ((mi : Nat) : Int) := by
      intro mi _
      rw [← catLabel_ofNat c mi]
      apply listIdxOf?_map (catLabel c)
      intro x hx hcat
      have hxmem : x ∈ (m0 :: ms').map (fun m => ((m : Nat) : Int)) :=
        (mem_sortedUniq _ _).mp hx
      obtain ⟨mx, _, rfl⟩ := List.mem_map.mp hxmem
      rw [catLabel_ofNat, catLabel_ofNat] at hcat
      have hdigs : natDigs mx = natDigs mi := by
        have hdata := congrArg String.data hcat
        simpa using hdata
      rw [natDigs_inj hdigs]
    have hcode : ∀ (i mi : Nat), (m0 :: ms').get? i = some mi →
        (((m0 :: ms').map (fun m => String.mk (c :: natDigs m))).map
          (fun s => listIdxOf?
            ((sortedUniq ((m0 :: ms').map (fun m => ((m : Nat) : Int)))).map (catLabel c))
            s)).get? i =
        some (listIdxOf? (sortedUniq ((m0 :: ms').map (fun m => ((m : Nat) : Int))))
          ((mi : Nat) : Int)) := by
      intro i mi hi
      rw [List.get?_map, List.get?_map, hi]
      simp only [Option.map_some']
      rw [hval mi (List.get?_mem hi)]
    have hmem_i : ((mi : Nat) : Int) ∈ sortedUniq ((m0 :: ms').map (fun m => ((m : Nat) : Int))) :=
      (mem_sortedUniq _ _).mpr (List.mem_map_of_mem _ (List.get?_mem hi))
    have hmem_j : ((mj : Nat) : Int) ∈ sortedUniq ((m0 :: ms').map (fun m => ((m : Nat) : Int))) :=
      (mem_sortedUniq _ _).mpr (List.mem_map_of_mem _ (List.get?_mem hj))
    obtain ⟨ki, hki⟩ := listIdxOf?_mem _ _ hmem_i
    obtain ⟨kj, hkj⟩ := listIdxOf?_mem _ _ hmem_j
    refine ⟨ki, kj, ?_, ?_, ?_⟩
    · rw [hcode i mi hi, hki]
    · rw [hcode j mj hj, hkj]
    · constructor
      · intro hk
        rcases lt_trichotomy mi mj with h | h | h
        · exact h
        · exfalso
          subst h
          rw [hki] at hkj
          have : ki = kj := Option.some_inj.mp hkj
          omega
        · exfalso
          have := listIdxOf?_lt_of_pairwise _ (sortedUniq_pairwise _) _ _ kj ki hkj hki
            (by exact_mod_cast h)
          omega
      · intro h
        exact listIdxOf?_lt_of_pairwise _ (sortedUniq_pairwise _) _ _ ki kj hki hkj
          (by exact_mod_cast h)
  · rfl

/-- Claim C9 witness: the series with suffixes 2 and 10. -/
theorem timepoint_numeric_order_witness :
    (∃ cats codes,
      _order_strings (([2, 10] : List Nat).map (fun m => String.mk ('d' :: natDigs m))) =
        Except.ok (cats, codes) ∧
      ∀ (i j mi mj : Nat),
        ([2, 10] : List Nat).get? i = some mi → ([2, 10] : List Nat).get? j = some mj →
        ∃ ki kj, codes.get? i = some (some ki) ∧ codes.get? j = some (some kj) ∧
          (ki < kj ↔ mi < mj)) ∧
    _order_strings ["d2", "d10"] = Except.ok (["d2", "d10"], [some 0, some 1]) :=
  timepoint_numeric_order 'd' [2, 10] (by decide)


theorem headChar_cons_data (s0 : String) (tl : List String) (ch : Char) (cs : List Char)
    (h : s0.data = ch :: cs) : headChar (s0 :: tl) = Except.ok ch := by
  show (match s0.data with
        | [] => Except.error "IndexError"
        | ch :: _ => Except.ok ch) = Except.ok ch
  rw [h]

theorem headChar_nil_data (s0 : String) (tl : List String)
    (h : s0.data = []) : headChar (s0 :: tl) = Except.error "IndexError" := by
  show (match s0.data with
        | [] => Except.error "IndexError"
        | ch :: _ => Except.ok ch) = Except.error "IndexError"
  rw [h]

theorem exMapM_parseNum_error :
    ∀ ss : List String, (∃ s ∈ ss, pyInt? (pySlice1 s) = none) →
      exMapM parseNum ss = Except.error "ValueError" := by
  intro ss
  induction ss with
  | nil =>
    intro hex
    obtain ⟨s, hs, _⟩ := hex
    simp at hs
  | cons a as ih =>
    intro hex
    unfold exMapM
    by_cases ha : pyInt? (pySlice1 a) = none
    · rw [show parseNum a = Except.error "ValueError" from by unfold parseNum; rw [ha]]
      rfl
    · obtain ⟨s, hs, hnone⟩ := hex
      have hs2 : s ∈ as := by
        rcases List.mem_cons.mp hs with h1 | h2
        · subst h1
          exact absurd hnone ha
        · exact h2
      cases hp : pyInt? (pySlice1 a) with
      | none => exact absurd hp ha
      | some n =>
        rw [show parseNum a = Except.ok n from by unfold parseNum; rw [hp]]
        rw [ok_bind, ih ⟨s, hs2, hnone⟩]
        rfl

/-- Claim C10: `_order_strings` is partial.  It raises `ValueError` as soon
as any label suffix (everything after the first character) fails to parse
as a Python int, and it takes the letter only from the first element: every
category starts with that letter, so any label whose first character
differs is assigned no category (`NaN`). -/
theorem order_strings_partiality :
    (∀ ss : List String, (∃ s ∈ ss, pyInt? (pySlice1 s) = none) →
      _order_strings ss = Except.error "ValueError") ∧
    (∀ (s0 : String) (tl : List String) (cats : List String)
        (codes : List (Option Nat)),
      _order_strings (s0 :: tl) = Except.ok (cats, codes) →
      codes = (s0 :: tl).map (fun s => listIdxOf? cats s) ∧
      ∀ s ∈ s0 :: tl, s.data.head? ≠ s0.data.head? → listIdxOf? cats s = none) := by
  constructor
  · intro ss hex
    unfold _order_strings
    rw [exMapM_parseNum_error ss hex]
    rfl
  · intro s0 tl cats codes horder
    unfold _order_strings at horder
    cases h1 : exMapM parseNum (s0 :: tl) with
    | error e =>
      rw [h1, error_bind] at horder
      exact absurd horder (by simp)
    | ok nums =>
      rw [h1, ok_bind] at horder
      cases hdata : s0.data with
      | nil =>
        rw [headChar_nil_data s0 tl hdata, error_bind] at horder
        exact absurd horder (by simp)
      | cons ch cs =>
        rw [headChar_cons_data s0 tl ch cs hdata, ok_bind] at horder
        simp only [Except.ok.injEq, Prod.mk.injEq] at horder
        obtain ⟨hcats, hcodes⟩ := horder
        subst hcats
        subst hcodes
        refine ⟨rfl, ?_⟩
        intro s _ hhead
        cases hid : listIdxOf? ((sortedUniq nums).map (catLabel ch)) s with
        | none => rfl
        | some k =>
          exfalso
          have hmem := mem_of_listIdxOf? _ _ _ hid
          obtain ⟨n, _, rfl⟩ := List.mem_map.mp hmem
          exact hhead rfl

/-- Claim C10 witness: the label "dx" makes the order raise, and the label
"x7", whose first character differs from the first element of
["d1", "x7"], is mapped to no category. -/
theorem order_strings_partiality_witness :
    _order_strings ["dx"] = Except.error "ValueError" ∧
    listIdxOf? ["d1", "d7"] "x7" = none :=
  ⟨order_strings_partiality.1 ["dx"] ⟨"dx", by decide, by decide⟩,
   (order_strings_partiality.2 "d1" ["x7"] ["d1", "d7"] [some 0, none] rfl).2
     "x7" (by decide) (by decide)⟩

end LpsDash
